import Mathlib

/-!
Verification of the eko session engine against its specification.

The definitions below are a shallow embedding of the Go sources:
  * `pkg/ui/model.go`    — the bubbletea `Model` and its `Update` step,
  * `pkg/ui/commands.go` — `handleCommand` and `generateID`,
  * the code-block file (`codeBlocks`, `codeBlockRegex`,
    `generateCodeBlockID`, `ReplaceCodeBlocksInContent`, `GetCodeBlock`),
  * `pkg/types/message.go` — the `Message`, `State`, `ViewMode`, `CodeBlock`
    types and the event (`tea.Msg`) variants.

Machine state of the terminal UI that the spec rules out of scope
(viewport scrolling arithmetic, lipgloss styling, the wire clients) is
represented by emitted effect values (`Cmd` below) instead of being
computed: the Go code hands exactly these obligations to bubbletea as
`tea.Cmd` thunks, so the effect list is the faithful observable of one
`Update` step.  Wall-clock instants (`time.Time`) are modelled as `Nat`
milliseconds.
-/

namespace Eko

/-- `types.State` from `pkg/types/message.go`. -/
inductive State where
  | NormalState
  | InsertState
  | CommandState
  | YankState
  | YankCodeState
  | ConfigState
  | SaveState
deriving Repr, DecidableEq

/-- `types.ViewMode` from `pkg/types/message.go`. -/
inductive ViewMode where
  | VerboseMode
  | TLDRMode
deriving Repr, DecidableEq

/-- `types.Message` from `pkg/types/message.go`: one conversation turn.
`Timestamp` is modelled as `Nat` milliseconds. -/
structure Message where
  id : String
  role : String
  content : String
  isCollapsed : Bool
  timestamp : Nat
deriving Repr, DecidableEq

/-- `types.CodeBlock` from `pkg/types/message.go`. -/
structure CodeBlock where
  id : String
  language : String
  content : String
  messageID : String
deriving Repr, DecidableEq

/-- `generateID` from `pkg/ui/commands.go`: turn id from the ordinal count
of messages created so far ('a' = 97). -/
def generateID (count : Nat) : String :=
  if count = 0 then
    "aa"
  else
    let first := count / 26
    let second := count % 26
    if first = 0 then
      String.singleton (Char.ofNat (97 + second)) ++ "a"
    else
      String.singleton (Char.ofNat (97 + first - 1)) ++ String.singleton (Char.ofNat (97 + second))

/-- The two-letter base-26 scheme the spec (§4.4) prescribes:
ordinal 0 → "aa", 1 → "ab", …, 25 → "az", 26 → "ba", … -/
def specTurnId (n : Nat) : String :=
  String.singleton (Char.ofNat (97 + n / 26 % 26)) ++ String.singleton (Char.ofNat (97 + n % 26))

example : generateID 0 = "aa" := by decide
example : generateID 1 = "ba" := by decide
example : generateID 26 = "aa" := by decide
example : specTurnId 1 = "ab" := by decide
example : specTurnId 26 = "ba" := by decide

/-! ### Code block extraction

Embedding of the code-block file: the regex
`codeBlockRegex = "(three backticks)(\w*)\n([\s\S]*?)(three backticks)"`,
its `FindAllStringSubmatch` scan (leftmost, non-overlapping, lazy inner
group), `generateCodeBlockID`, and the storage effect of
`ReplaceCodeBlocksInContent` on the global `codeBlocks` map. -/

/-- The backtick character, `'\x60'`. -/
def backtick : Char := Char.ofNat 96

/-- `\w` of Go's `regexp`: ASCII word characters `[0-9A-Za-z_]`. -/
def isWordChar (c : Char) : Bool :=
  c.isAlphanum || c == '_'

/-- Whether the text starts with the three-backtick fence marker. -/
def startsFence (s : List Char) : Bool :=
  s.take 3 == [backtick, backtick, backtick]

/-- Lazy search for the closing fence: splits `s` at the earliest
occurrence of the three-backtick marker into the text before it and the
text after it (`[\s\S]*?` followed by the literal closing marker). -/
def findClose : List Char → Option (List Char × List Char)
  | [] => none
  | c :: cs =>
    if startsFence (c :: cs) then some ([], cs.drop 2)
    else
      match findClose cs with
      | some (pre, rest) => some (c :: pre, rest)
      | none => none

/-- One attempt of `codeBlockRegex` at the head of the text: opening
fence, maximal `\w*` language tag, a mandatory newline, then the lazy
body up to the earliest closing fence.  Returns the language, the raw
body (group 2) and the remaining text after the match. -/
def matchFence (s : List Char) : Option (List Char × List Char × List Char) :=
  if startsFence s then
    let t := s.drop 3
    let lang := t.takeWhile isWordChar
    match t.dropWhile isWordChar with
    | [] => none
    | c :: t3 =>
      if c == '\n' then
        match findClose t3 with
        | some (content, rest) => some (lang, content, rest)
        | none => none
      else none
  else none

/-- `FindAllStringSubmatch(content, -1)`: scan left to right, take the
leftmost match, continue after it (non-overlapping); the fuel bounds the
number of scan steps and is instantiated with the text length. -/
def scanFences : Nat → List Char → List (List Char × List Char)
  | 0, _ => []
  | _ + 1, [] => []
  | fuel + 1, c :: cs =>
    match matchFence (c :: cs) with
    | some (lang, content, rest) => (lang, content) :: scanFences fuel rest
    | none => scanFences fuel cs

/-- `generateCodeBlockID` from the code-block file: owning message id
plus a single letter ordinal ('a' = 97). -/
def generateCodeBlockID (messageID : String) (index : Nat) : String :=
  messageID ++ String.singleton (Char.ofNat (97 + index))

/-- `strings.TrimSpace`: drop leading and trailing whitespace. -/
def trimSpace (l : List Char) : List Char :=
  ((l.dropWhile Char.isWhitespace).reverse.dropWhile Char.isWhitespace).reverse

/-- The blocks `ReplaceCodeBlocksInContent(content, messageID, _)`
extracts: for each regex match, the trimmed language, the trimmed body
and the id `messageID ++ letter(i)`. -/
def extractCodeBlocks (content : String) (messageID : String) : List CodeBlock :=
  (scanFences content.data.length content.data).enum.map fun p =>
    { id := generateCodeBlockID messageID p.1
      language := String.mk (trimSpace p.2.1)
      content := String.mk (trimSpace p.2.2)
      messageID := messageID }

/-- The global `codeBlocks` map, as a lookup function. -/
def CodeBlockStore : Type := String → Option CodeBlock

/-- The empty `codeBlocks` map. -/
def emptyStore : CodeBlockStore := fun _ => none

/-- One map write `codeBlocks[blockID] = block`. -/
def storeInsert (st : CodeBlockStore) (b : CodeBlock) : CodeBlockStore :=
  fun k => if k == b.id then some b else st k

/-- The storage effect of `ReplaceCodeBlocksInContent` on the global
`codeBlocks` map: every extracted block is written under its id
(`codeBlocks[blockID] = block`); nothing is ever deleted. -/
def replaceCodeBlocksStore (store : CodeBlockStore) (content : String)
    (messageID : String) : CodeBlockStore :=
  (extractCodeBlocks content messageID).foldl storeInsert store

/-- `GetCodeBlock` from the code-block file. -/
def GetCodeBlock (store : CodeBlockStore) (blockID : String) : Option CodeBlock :=
  store blockID

/-- Number of (possibly overlapping) occurrences of the three-backtick
fence marker in a text. -/
def countFences : List Char → Nat
  | [] => 0
  | c :: cs => (if startsFence (c :: cs) then 1 else 0) + countFences cs

example :
    extractCodeBlocks "pre ```go\nfmt.Println()\n``` post" "ab" =
      [{ id := "aba", language := "go", content := "fmt.Println()", messageID := "ab" }] := by
  decide

example : extractCodeBlocks "pre ```go\nfmt.Println()\n post" "ab" = [] := by decide

theorem countFences_append_left (t l : List Char) :
    countFences l ≤ countFences (t ++ l) := by
  induction t with
  | nil => simp
  | cons c cs ih =>
    calc countFences l ≤ countFences (cs ++ l) := ih
    _ ≤ countFences (c :: (cs ++ l)) := by
        simp only [countFences]; omega

theorem countFences_of_suffix {l₁ l₂ : List Char} (h : l₁ <:+ l₂) :
    countFences l₁ ≤ countFences l₂ := by
  obtain ⟨t, rfl⟩ := h
  exact countFences_append_left t l₁

theorem findClose_countFences {l : List Char} {p : List Char × List Char}
    (h : findClose l = some p) : 1 ≤ countFences l := by
  induction l generalizing p with
  | nil => simp [findClose] at h
  | cons c cs ih =>
    rw [findClose] at h
    by_cases hf : startsFence (c :: cs)
    · simp only [countFences, hf, if_pos]; omega
    · simp only [hf, if_neg, Bool.false_eq_true, not_false_eq_true, if_neg hf] at h
      match hfc : findClose cs with
      | some q =>
        have := ih hfc
        simp only [countFences]; omega
      | none => rw [hfc] at h; simp at h

theorem matchFence_countFences {s : List Char}
    {x : List Char × List Char × List Char}
    (h : matchFence s = some x) : 2 ≤ countFences s := by
  rw [matchFence] at h
  by_cases hf : startsFence s
  · simp only [hf, if_pos] at h
    match s, hf with
    | c :: cs, hf =>
      match hsplit : (cs.drop 2).dropWhile isWordChar with
      | [] =>
        rw [show (c :: cs).drop 3 = cs.drop 2 from rfl, hsplit] at h
        simp at h
      | d :: t3 =>
        rw [show (c :: cs).drop 3 = cs.drop 2 from rfl, hsplit] at h
        by_cases hd : d == '\n'
        · simp only [hd, if_pos] at h
          match hfc : findClose t3 with
          | some q =>
            have h1 : 1 ≤ countFences t3 := findClose_countFences hfc
            have h2 : t3 <:+ cs := by
              have ha : t3 <:+ d :: t3 := ⟨[d], rfl⟩
              have hb : d :: t3 <:+ cs.drop 2 := by
                rw [← hsplit]; exact List.dropWhile_suffix _
              exact ha.trans (hb.trans (List.drop_suffix 2 cs))
            have h3 := countFences_of_suffix h2
            simp only [countFences, hf, if_pos]
            omega
          | none => rw [hfc] at h; simp at h
        · simp [hd] at h
  · simp [hf] at h

theorem scanFences_of_few_fences {fuel : Nat} {s : List Char}
    (h : countFences s ≤ 1) : scanFences fuel s = [] := by
  induction fuel generalizing s with
  | zero => rw [scanFences]
  | succ n ih =>
    match s with
    | [] => rw [scanFences]
    | c :: cs =>
      rw [scanFences]
      match hm : matchFence (c :: cs) with
      | some x => exact absurd (matchFence_countFences hm) (by omega)
      | none =>
        have hcs : countFences cs ≤ 1 := by
          have : countFences cs ≤ countFences (c :: cs) := by
            simp only [countFences]; omega
          omega
        exact ih hcs

/-! ### The session model and its update step

Embedding of `Model` and `Model.Update` from `pkg/ui/model.go` and of
`handleCommand` from `pkg/ui/commands.go`.  Rendering-only fields
(viewport, spinner, styles, window size) are omitted; the scroll and
I/O work the Go code delegates as `tea.Cmd` values is modelled by the
`Cmd` effect type below. -/

/-- The effects one update step can emit.  Each constructor stands for
one `tea.Cmd` the Go code appends to `cmds` (or, for the scroll signals,
a direct viewport call that the spec describes as a signal to the
rendering collaborator). -/
inductive Cmd where
  | cancelStream (id : String)
  | startRealtimeStream (id : String)
  | updateViewportContent
  | scrollToBottom
  | gotoTop
  | gotoBottom
  | quit
  | spinnerTick
  | saveConfig (model : String)
  | exportFile (filename : String) (records : List Message)
  | clipboardWrite (text : String)
deriving Repr, DecidableEq

/-- The session-relevant fields of `ui.Model` (`pkg/ui/model.go`).
`inputValue` is the value of the bubbles text input; `keyTimer` and
`yankStatusTimer` are instants in milliseconds. -/
structure Model where
  state : State
  viewMode : ViewMode
  messages : List Message
  inputValue : String
  modelName : String
  modelList : List String
  selectedIdx : Nat
  streaming : Bool
  isThinking : Bool
  currentStreamID : String
  lastKey : String
  keyTimer : Nat
  yankInput : String
  yankStatus : String
  yankStatusTimer : Nat
deriving Repr, DecidableEq

/-- The generation / streaming event variants of `tea.Msg`
(`pkg/types/message.go`) that `Model.Update` handles. -/
inductive Event where
  | tokenMsg (id token : String)
  | generationStartMsg (id : String)
  | generationDoneMsg (id : String)
  | streamErrorMsg (id error : String)
  | cancelStreamMsg (id : String)
  | streamTokenMsg (id token : String) (done : Bool)
  | streamMsg (id token : String) (done : Bool)
deriving Repr, DecidableEq

/-- In-place mutation of the last element,
`m.messages[len(m.messages)-1] = ...`. -/
def updateLastMessage : List Message → (Message → Message) → List Message
  | [], _ => []
  | [msg], f => [f msg]
  | msg :: rest, f => msg :: updateLastMessage rest f

/-- The guard `len(m.messages) > 0 && m.messages[len(m.messages)-1].Role == "assistant"`. -/
def lastIsAssistant (msgs : List Message) : Bool :=
  match msgs.getLast? with
  | some last => last.role == "assistant"
  | none => false

/-- `m.messages[len(m.messages)-1].Content += text`. -/
def appendToLast (msgs : List Message) (text : String) : List Message :=
  updateLastMessage msgs (fun msg => { msg with content := msg.content ++ text })

/-- `m.messages[len(m.messages)-1].Content = text`. -/
def setLastContent (msgs : List Message) (text : String) : List Message :=
  updateLastMessage msgs (fun msg => { msg with content := text })

/-- One streaming event applied to the model: the event cases of
`Model.Update` (both the `msgChan` drain and the identical direct
cases).  Returns the new model and the emitted effects. -/
def applyEvent (m : Model) (ev : Event) : Model × List Cmd :=
  match ev with
  | .tokenMsg id token =>
    match m.messages.getLast? with
    | some last =>
      if last.role == "assistant" && last.id == id then
        ({ m with messages := appendToLast m.messages token }, [Cmd.updateViewportContent])
      else (m, [])
    | none => (m, [])
  | .generationStartMsg id =>
    ({ m with isThinking := true, currentStreamID := id }, [Cmd.spinnerTick])
  | .generationDoneMsg _ =>
    ({ m with isThinking := false, streaming := false, currentStreamID := "" },
     [Cmd.updateViewportContent])
  | .streamErrorMsg _ error =>
    let m' :=
      if lastIsAssistant m.messages then
        { m with messages := setLastContent m.messages ("Error: " ++ error) }
      else m
    ({ m' with streaming := false, isThinking := false }, [])
  | .cancelStreamMsg id =>
    if m.currentStreamID == id then
      let m' := { m with isThinking := false, streaming := false, currentStreamID := "" }
      let m'' :=
        if lastIsAssistant m'.messages then
          { m' with messages := appendToLast m'.messages " [Stream cancelled]" }
        else m'
      (m'', [Cmd.updateViewportContent])
    else (m, [])
  | .streamTokenMsg _ token done =>
    let m' :=
      if lastIsAssistant m.messages then
        { m with messages := appendToLast m.messages token }
      else m
    let m'' := if done then { m' with streaming := false } else m'
    (m'', [Cmd.updateViewportContent])
  | .streamMsg _ token done =>
    let m' :=
      if lastIsAssistant m.messages then
        { m with messages := appendToLast m.messages token }
      else m
    let m'' := if done then { m' with streaming := false } else m'
    (m'', [Cmd.updateViewportContent])

/-- `getLastUserMessage`: backward search for the last user turn. -/
def getLastUserMessage (msgs : List Message) : String :=
  match msgs.reverse.find? (fun msg => msg.role == "user") with
  | some msg => msg.content
  | none => ""

/-- `getLastAssistantMessage`: backward search for the last assistant turn. -/
def getLastAssistantMessage (msgs : List Message) : String :=
  match msgs.reverse.find? (fun msg => msg.role == "assistant") with
  | some msg => msg.content
  | none => ""

/-- `strings.Fields` on the character list: split around runs of
whitespace, accumulating the current word in reverse. -/
def goFieldsChars : List Char → List Char → List String
  | [], cur => if cur.isEmpty then [] else [String.mk cur.reverse]
  | c :: cs, cur =>
    if c.isWhitespace then
      if cur.isEmpty then goFieldsChars cs []
      else String.mk cur.reverse :: goFieldsChars cs []
    else goFieldsChars cs (c :: cur)

/-- `strings.Fields`: split around runs of whitespace. -/
def goFields (s : String) : List String :=
  goFieldsChars s.data []

/-- `strings.HasSuffix`. -/
def goHasSuffix (s suffix : String) : Bool :=
  suffix.data.isSuffixOf s.data

/-- `handleCommand` from `pkg/ui/commands.go`.  The `save` export closure
is modelled by the `Cmd.exportFile` effect carrying the filename and the
captured message list. -/
def handleCommand (m : Model) (command : String) : Model × List Cmd :=
  match goFields command with
  | [] => (m, [])
  | c :: args =>
    if c == "config" then
      ({ m with state := .ConfigState,
                selectedIdx := (m.modelList.findIdx? (fun x => x == m.modelName)).getD 0 }, [])
    else if c == "save" then
      match args with
      | [] => ({ m with state := .NormalState }, [])
      | filename :: _ =>
        let filename := if goHasSuffix filename ".json" then filename else filename ++ ".json"
        ({ m with state := .NormalState }, [Cmd.exportFile filename m.messages])
    else if c == "tldr" then
      ({ m with viewMode := .TLDRMode,
                messages := m.messages.map (fun msg =>
                  if msg.content.length > 100 then { msg with isCollapsed := true } else msg),
                state := .NormalState }, [])
    else if c == "verbose" then
      ({ m with viewMode := .VerboseMode,
                messages := m.messages.map (fun msg => { msg with isCollapsed := false }),
                state := .NormalState }, [])
    else if c == "q" || c == "quit" then
      (m, [Cmd.quit])
    else
      ({ m with state := .NormalState }, [])

/-- Modelled from the spec: the text-input collaborator (the bubbles
text input, out of scope per §1) appends a printable key to the buffer
and leaves the buffer unchanged on non-character keys such as `enter`
(§4.1: "append to buffer (delegated to a text-input collaborator)"). -/
def textInputUpdate (v : String) (key : String) : String :=
  if key.length == 1 then v ++ key else v

/-- The key-dispatch part of `Model.Update` on a `tea.KeyMsg`: the state
machine switch, returning the new model, the emitted effects, and the
`justTransitioned` flag. -/
def keyDispatch (store : CodeBlockStore) (m : Model) (key : String) (now : Nat) :
    Model × List Cmd × Bool :=
  if m.state == .NormalState then
    if key == "i" then
      ({ m with state := .InsertState, inputValue := "" }, [], true)
    else if key == ":" then
      ({ m with state := .CommandState, inputValue := "" }, [], true)
    else if key == "y" then
      ({ m with state := .YankCodeState }, [], true)
    else if key == "o" then
      ({ m with state := .InsertState, inputValue := getLastUserMessage m.messages }, [], true)
    else if key == "O" then
      ({ m with state := .InsertState, inputValue := getLastAssistantMessage m.messages }, [], true)
    else if key == "tab" then
      (m, [], false)
    else if key == "ctrl+c" then
      if m.isThinking && m.currentStreamID != "" then
        (m, [Cmd.cancelStream m.currentStreamID], false)
      else
        (m, [Cmd.quit], false)
    else if key == "q" then
      (m, [Cmd.quit], false)
    else if key == "G" then
      ({ m with lastKey := "" },
       (if m.messages.length > 0 then [Cmd.gotoBottom] else []), false)
    else if key == "g" then
      if m.lastKey == "g" && now - m.keyTimer ≤ 300 then
        ({ m with lastKey := "" }, [Cmd.gotoTop], false)
      else
        ({ m with lastKey := "g", keyTimer := now }, [], false)
    else (m, [], false)
  else
    match m.state with
    | .InsertState =>
      if key == "shift+enter" || key == "shift+return" then
        ({ m with inputValue := m.inputValue ++ "\n" }, [], true)
      else if key == "enter" then
        if m.inputValue == "" then
          (m, [], false)
        else
          let cancelCmds :=
            if m.isThinking && m.currentStreamID != "" then
              [Cmd.cancelStream m.currentStreamID]
            else []
          let uid := generateID m.messages.length
          let userMsg : Message :=
            { id := uid, role := "user", content := m.inputValue,
              isCollapsed := false, timestamp := now }
          let msgs1 := m.messages ++ [userMsg]
          let aid := generateID msgs1.length
          let aiMsg : Message :=
            { id := aid, role := "assistant", content := "",
              isCollapsed := false, timestamp := now }
          ({ m with messages := msgs1 ++ [aiMsg], streaming := true, isThinking := true,
                    currentStreamID := aid, state := .NormalState, inputValue := "" },
           cancelCmds ++ [Cmd.startRealtimeStream aid, Cmd.updateViewportContent,
                          Cmd.scrollToBottom],
           false)
      else if key == "esc" then
        ({ m with state := .NormalState, inputValue := "" }, [], false)
      else (m, [], false)
    | .CommandState =>
      if key == "enter" then
        let command := m.inputValue
        let (m', cmds) := handleCommand { m with inputValue := "" } command
        (m', cmds, false)
      else if key == "esc" then
        ({ m with state := .NormalState, inputValue := "" }, [], false)
      else (m, [], false)
    | .YankState =>
      if key.length == 2 then
        let cmds :=
          match m.messages.find? (fun msg => msg.id == key) with
          | some msg => [Cmd.clipboardWrite msg.content]
          | none => []
        ({ m with state := .NormalState }, cmds, false)
      else if key == "esc" then
        ({ m with state := .NormalState }, [], false)
      else (m, [], false)
    | .YankCodeState =>
      if key == "enter" then
        if m.yankInput != "" then
          match GetCodeBlock store m.yankInput with
          | some block =>
            ({ m with yankStatus := "ok: copied " ++ m.yankInput, yankStatusTimer := now,
                      yankInput := "", state := .NormalState },
             [Cmd.clipboardWrite block.content], true)
          | none =>
            ({ m with yankStatus := "invalid code ID", yankStatusTimer := now,
                      yankInput := "", state := .NormalState }, [], true)
        else
          ({ m with yankInput := "", state := .NormalState }, [], true)
      else if key == "esc" then
        ({ m with yankInput := "", state := .NormalState }, [], true)
      else if key.length == 1 then
        ({ m with yankInput := m.yankInput ++ key }, [], true)
      else if key == "backspace" || key == "delete" then
        ({ m with yankInput := m.yankInput.dropRight 1 }, [], true)
      else (m, [], true)
    | .ConfigState =>
      if key == "j" then
        (if m.selectedIdx < m.modelList.length - 1 then
          { m with selectedIdx := m.selectedIdx + 1 } else m, [], false)
      else if key == "k" then
        (if m.selectedIdx > 0 then { m with selectedIdx := m.selectedIdx - 1 } else m, [], false)
      else if key == "enter" then
        if m.selectedIdx < m.modelList.length then
          ({ m with modelName := m.modelList.getD m.selectedIdx "",
                    state := .NormalState },
           [Cmd.saveConfig (m.modelList.getD m.selectedIdx "")], false)
        else (m, [], false)
      else if key == "esc" then
        ({ m with state := .NormalState }, [], false)
      else (m, [], false)
    | _ => (m, [], false)

/-- One full `Model.Update` step on a `tea.KeyMsg` (with no pending
message in `msgChan`): key dispatch, then the text-input delegation
unless just transitioned, then the yank-status timeout reset. -/
def applyKey (store : CodeBlockStore) (m : Model) (key : String) (now : Nat) :
    Model × List Cmd :=
  let (m1, cmds, justTransitioned) := keyDispatch store m key now
  let m2 :=
    if !justTransitioned && (m1.state == .InsertState || m1.state == .CommandState) then
      { m1 with inputValue := textInputUpdate m1.inputValue key }
    else m1
  let m3 :=
    if m2.yankStatus != "" && now - m2.yankStatusTimer ≥ 3000 then
      { m2 with yankStatus := "" }
    else m2
  (m3, cmds)

/-- `NewModel` from `pkg/ui/model.go`, restricted to the modelled
fields. -/
def initModel : Model :=
  { state := .NormalState, viewMode := .VerboseMode, messages := [], inputValue := "",
    modelName := "dolphin-phi", modelList := [], selectedIdx := 0, streaming := false,
    isThinking := false, currentStreamID := "", lastKey := "", keyTimer := 0,
    yankInput := "", yankStatus := "", yankStatusTimer := 0 }

theorem updateLastMessage_eq {msgs : List Message} {last : Message}
    (f : Message → Message) (h : msgs.getLast? = some last) :
    updateLastMessage msgs f = msgs.dropLast ++ [f last] := by
  induction msgs with
  | nil => simp at h
  | cons c cs ih =>
    match cs, ih with
    | [], _ =>
      simp only [List.getLast?_singleton, Option.some.injEq] at h
      subst h
      rfl
    | d :: ds, ih =>
      rw [List.getLast?_cons_cons] at h
      rw [show updateLastMessage (c :: d :: ds) f = c :: updateLastMessage (d :: ds) f from rfl,
          ih h, List.dropLast_cons_of_ne_nil (List.cons_ne_nil d ds), List.cons_append]

theorem updateLastMessage_getLast {msgs : List Message} {last : Message}
    (f : Message → Message) (h : msgs.getLast? = some last) :
    (updateLastMessage msgs f).getLast? = some (f last) := by
  rw [updateLastMessage_eq f h, List.getLast?_concat]

theorem updateLastMessage_dropLast {msgs : List Message} {last : Message}
    (f : Message → Message) (h : msgs.getLast? = some last) :
    (updateLastMessage msgs f).dropLast = msgs.dropLast := by
  rw [updateLastMessage_eq f h, List.dropLast_concat]

/-- Sample conversation: one user turn and one assistant turn. -/
def msgUser : Message :=
  { id := "aa", role := "user", content := "hi", isCollapsed := false, timestamp := 0 }

/-- Sample assistant turn, last in the log. -/
def msgAsst : Message :=
  { id := "ba", role := "assistant", content := "x", isCollapsed := false, timestamp := 1 }

/-- Sample session whose log is `[msgUser, msgAsst]` with no active
generation. -/
def sampleModel : Model :=
  { initModel with messages := [msgUser, msgAsst] }

/-- Sample session whose log is `[msgUser, msgAsst]` with a generation
streaming into the assistant turn `"ba"`. -/
def activeModel : Model :=
  { initModel with messages := [msgUser, msgAsst], streaming := true, isThinking := true,
                   currentStreamID := "ba" }

/-- Four-turn log: first exchange answered, second pending. -/
def msgU1 : Message :=
  { id := "aa", role := "user", content := "q1", isCollapsed := false, timestamp := 0 }

/-- First assistant turn, superseded generation target. -/
def msgA1 : Message :=
  { id := "ba", role := "assistant", content := "a1", isCollapsed := false, timestamp := 1 }

/-- Second user turn. -/
def msgU2 : Message :=
  { id := "ca", role := "user", content := "q2", isCollapsed := false, timestamp := 2 }

/-- Second assistant turn, current generation target, last in the log. -/
def msgA2 : Message :=
  { id := "da", role := "assistant", content := "", isCollapsed := false, timestamp := 3 }

/-- Session with two user/assistant pairs and a generation streaming
into turn "da". -/
def fourTurnModel : Model :=
  { initModel with messages := [msgU1, msgA1, msgU2, msgA2], streaming := true,
                   isThinking := true, currentStreamID := "da" }

theorem lastIsAssistant_eq_true {msgs : List Message} :
    lastIsAssistant msgs = true ↔
      ∃ last, msgs.getLast? = some last ∧ last.role = "assistant" := by
  unfold lastIsAssistant
  cases h : msgs.getLast? with
  | none => simp
  | some last => simp [h]

theorem storeFold_frame (bs : List CodeBlock) (st : CodeBlockStore) (k : String)
    (h : ∀ b ∈ bs, k ≠ b.id) : bs.foldl storeInsert st k = st k := by
  induction bs generalizing st with
  | nil => rfl
  | cons c cs ih =>
    rw [List.foldl_cons, ih _ (fun b hb => h b (List.mem_cons_of_mem _ hb))]
    show (if k == c.id then some c else st k) = st k
    rw [if_neg]
    simp only [beq_iff_eq]
    exact h c (List.mem_cons_self c cs)

theorem storeFold_mem (bs : List CodeBlock) (st : CodeBlockStore) (k : String)
    (h : ∃ b ∈ bs, b.id = k) :
    ∃ b', bs.foldl storeInsert st k = some b' ∧ b' ∈ bs ∧ b'.id = k := by
  induction bs generalizing st with
  | nil => simp at h
  | cons c cs ih =>
    rw [List.foldl_cons]
    by_cases hcs : ∃ b ∈ cs, b.id = k
    · obtain ⟨b', hb1, hb2, hb3⟩ := ih (storeInsert st c) hcs
      exact ⟨b', hb1, List.mem_cons_of_mem _ hb2, hb3⟩
    · have hc : c.id = k := by
        obtain ⟨b, hb, hbk⟩ := h
        rcases List.mem_cons.mp hb with rfl | hmem
        · exact hbk
        · exact absurd ⟨b, hmem, hbk⟩ hcs
      have hframe : cs.foldl storeInsert (storeInsert st c) k = storeInsert st c k :=
        storeFold_frame cs _ k (fun b hb hbk => hcs ⟨b, hb, hbk.symm⟩)
      refine ⟨c, ?_, List.mem_cons_self c cs, hc⟩
      rw [hframe]
      show (if k == c.id then some c else st k) = some c
      rw [if_pos]
      simp only [beq_iff_eq]
      exact hc.symm

/-- First test content for the index: two fenced blocks in one turn. -/
def twoBlockContent : String := "```go\nA\n```\n```py\nB\n```"

/-- Second test content for the index: a single fenced block. -/
def oneBlockContent : String := "```go\nC\n```"

/-- Index state after computing the blocks of `twoBlockContent` for turn `ab`. -/
def storeAfterFirst : CodeBlockStore := replaceCodeBlocksStore emptyStore twoBlockContent "ab"

/-- Index state after recomputing turn `ab` from `oneBlockContent`. -/
def storeAfterSecond : CodeBlockStore := replaceCodeBlocksStore storeAfterFirst oneBlockContent "ab"

example : extractCodeBlocks twoBlockContent "ab" =
    [{ id := "aba", language := "go", content := "A", messageID := "ab" },
     { id := "abb", language := "py", content := "B", messageID := "ab" }] := by decide

example : extractCodeBlocks oneBlockContent "ab" =
    [{ id := "aba", language := "go", content := "C", messageID := "ab" }] := by decide

end Eko

/-- C3.  Turn-id allocation: evaluation of `generateID` at the failing
ordinals.  The code yields `generateID 1 = "ba"` where the base-26 scheme
(and the function's own comment "(aa, ab, ac, ...)") requires "ab", and
`generateID 26 = "aa" = generateID 0`, a collision, so the allocation is
neither the claimed sequence nor injective. -/
theorem c3_generateID_code_bug :
    Eko.generateID 1 = "ba" ∧ Eko.generateID 1 ≠ Eko.specTurnId 1 ∧
    Eko.generateID 26 = Eko.generateID 0 ∧ (26 : Nat) ≠ 0 := by
  refine ⟨by decide, by decide, by decide, by decide⟩

/-- C6.  Code block extraction is fence-complete: the example content for
turn "ab" yields exactly one block with id "aba", language "go" and
content "fmt.Println()", and any content whose opening fence has no
matching closing marker (at most one occurrence of the three-backtick
marker in the whole content) yields zero blocks. -/
theorem c6_code_block_extraction :
    Eko.extractCodeBlocks "pre ```go\nfmt.Println()\n``` post" "ab" =
      [{ id := "aba", language := "go", content := "fmt.Println()", messageID := "ab" }] ∧
    ∀ (content messageID : String), Eko.countFences content.data ≤ 1 →
      Eko.extractCodeBlocks content messageID = [] := by
  constructor
  · decide
  · intro content messageID h
    unfold Eko.extractCodeBlocks
    rw [Eko.scanFences_of_few_fences h]
    rfl

/-- Witness for C6 at a concrete unterminated fence. -/
theorem c6_code_block_extraction_witness :
    Eko.countFences ("pre ```go\nfmt.Println()\n post" : String).data ≤ 1 ∧
    Eko.extractCodeBlocks "pre ```go\nfmt.Println()\n post" "ab" = [] :=
  ⟨by decide, c6_code_block_extraction.2 "pre ```go\nfmt.Println()\n post" "ab" (by decide)⟩

/-- C7.  Counterexample: recomputation does NOT fully replace the entries
previously stored for a turn.  Turn "ab" is first computed from content
with two blocks (ids "aba", "abb"), then recomputed from content with a
single block (id "aba"); the claim says the entry "abb" from the earlier
computation is no longer retrievable, but `GetCodeBlock` still returns
it. -/
theorem c7_counterexample :
    Eko.GetCodeBlock Eko.storeAfterSecond "abb" =
      some { id := "abb", language := "py", content := "B", messageID := "ab" } ∧
    ∀ b ∈ Eko.extractCodeBlocks Eko.oneBlockContent "ab", b.id ≠ "abb" := by
  constructor
  · decide
  · decide

/-- C7 (amended).  Recomputing a turn's blocks merges into the index: every
block of the current content is stored and retrievable under its id, and
every other key — including entries an earlier computation stored for the
same turn under a block letter no longer present — keeps its previous
value (the global map is never purged). -/
theorem c7_recompute_merges (store : Eko.CodeBlockStore) (content messageID : String) :
    (∀ k : String, (∀ b ∈ Eko.extractCodeBlocks content messageID, k ≠ b.id) →
      Eko.GetCodeBlock (Eko.replaceCodeBlocksStore store content messageID) k =
        Eko.GetCodeBlock store k) ∧
    (∀ k : String, (∃ b ∈ Eko.extractCodeBlocks content messageID, b.id = k) →
      ∃ b', Eko.GetCodeBlock (Eko.replaceCodeBlocksStore store content messageID) k = some b' ∧
        b' ∈ Eko.extractCodeBlocks content messageID ∧ b'.id = k) := by
  constructor
  · intro k hk
    exact Eko.storeFold_frame _ store k hk
  · intro k hk
    exact Eko.storeFold_mem _ store k hk

/-- Witness for C7 (amended) at the concrete two-block content. -/
theorem c7_recompute_merges_witness :
    Eko.GetCodeBlock (Eko.replaceCodeBlocksStore Eko.emptyStore Eko.twoBlockContent "ab") "zz" =
      Eko.GetCodeBlock Eko.emptyStore "zz" ∧
    ∃ b', Eko.GetCodeBlock (Eko.replaceCodeBlocksStore Eko.emptyStore Eko.twoBlockContent "ab") "abb" =
        some b' ∧ b' ∈ Eko.extractCodeBlocks Eko.twoBlockContent "ab" ∧ b'.id = "abb" :=
  ⟨(c7_recompute_merges Eko.emptyStore Eko.twoBlockContent "ab").1 "zz" (by decide),
   (c7_recompute_merges Eko.emptyStore Eko.twoBlockContent "ab").2 "abb" (by decide)⟩

/-- C2.  Terminal-status stickiness under the cancellation race: with a
generation streaming into the last assistant turn (handle `h`), applying
the `CancelStreamMsg` terminal event and a late `TokenMsg` for the same
handle in either relative order leaves the generation terminal —
`streaming` and `isThinking` false and no current stream — with the
cancellation mark recorded in the turn's content; the late Token never
makes the generation non-terminal again. -/
theorem c2_cancel_token_race (m : Eko.Model) (h tok : String) (last : Eko.Message)
    (hlast : m.messages.getLast? = some last)
    (hrole : last.role = "assistant")
    (hid : last.id = h)
    (hcur : m.currentStreamID = h) :
    ((Eko.applyEvent (Eko.applyEvent m (.cancelStreamMsg h)).1 (.tokenMsg h tok)).1.streaming = false ∧
     (Eko.applyEvent (Eko.applyEvent m (.cancelStreamMsg h)).1 (.tokenMsg h tok)).1.isThinking = false ∧
     (Eko.applyEvent (Eko.applyEvent m (.cancelStreamMsg h)).1 (.tokenMsg h tok)).1.currentStreamID = "" ∧
     (Eko.applyEvent (Eko.applyEvent m (.cancelStreamMsg h)).1 (.tokenMsg h tok)).1.messages.getLast? =
       some { last with content := last.content ++ " [Stream cancelled]" ++ tok }) ∧
    ((Eko.applyEvent (Eko.applyEvent m (.tokenMsg h tok)).1 (.cancelStreamMsg h)).1.streaming = false ∧
     (Eko.applyEvent (Eko.applyEvent m (.tokenMsg h tok)).1 (.cancelStreamMsg h)).1.isThinking = false ∧
     (Eko.applyEvent (Eko.applyEvent m (.tokenMsg h tok)).1 (.cancelStreamMsg h)).1.currentStreamID = "" ∧
     (Eko.applyEvent (Eko.applyEvent m (.tokenMsg h tok)).1 (.cancelStreamMsg h)).1.messages.getLast? =
       some { last with content := last.content ++ tok ++ " [Stream cancelled]" }) := by
  have hb1 : (m.currentStreamID == h) = true := by simp [hcur]
  have hA : Eko.lastIsAssistant m.messages = true := by
    unfold Eko.lastIsAssistant
    rw [hlast]
    simp [hrole]
  have e1 : Eko.applyEvent m (.cancelStreamMsg h) =
      ({ m with isThinking := false, streaming := false, currentStreamID := "",
                messages := Eko.appendToLast m.messages " [Stream cancelled]" },
       [Eko.Cmd.updateViewportContent]) := by
    simp only [Eko.applyEvent, hb1, if_true, hA]
  have hlast1 : (Eko.appendToLast m.messages " [Stream cancelled]").getLast? =
      some { last with content := last.content ++ " [Stream cancelled]" } :=
    Eko.updateLastMessage_getLast _ hlast
  have e2 : Eko.applyEvent (Eko.applyEvent m (.cancelStreamMsg h)).1 (.tokenMsg h tok) =
      ({ m with isThinking := false, streaming := false, currentStreamID := "",
                messages := Eko.appendToLast (Eko.appendToLast m.messages " [Stream cancelled]") tok },
       [Eko.Cmd.updateViewportContent]) := by
    rw [e1]
    simp only [Eko.applyEvent, hlast1, hrole, hid]
    simp
  have hlast2 : (Eko.appendToLast (Eko.appendToLast m.messages " [Stream cancelled]") tok).getLast? =
      some { last with content := last.content ++ " [Stream cancelled]" ++ tok } :=
    Eko.updateLastMessage_getLast _ hlast1
  have e3 : Eko.applyEvent m (.tokenMsg h tok) =
      ({ m with messages := Eko.appendToLast m.messages tok },
       [Eko.Cmd.updateViewportContent]) := by
    simp only [Eko.applyEvent, hlast, hrole, hid]
    simp
  have hlast3 : (Eko.appendToLast m.messages tok).getLast? =
      some { last with content := last.content ++ tok } :=
    Eko.updateLastMessage_getLast _ hlast
  have hA3 : Eko.lastIsAssistant (Eko.appendToLast m.messages tok) = true := by
    unfold Eko.lastIsAssistant
    rw [hlast3]
    simp [hrole]
  have e4 : Eko.applyEvent (Eko.applyEvent m (.tokenMsg h tok)).1 (.cancelStreamMsg h) =
      ({ m with isThinking := false, streaming := false, currentStreamID := "",
                messages := Eko.appendToLast (Eko.appendToLast m.messages tok) " [Stream cancelled]" },
       [Eko.Cmd.updateViewportContent]) := by
    rw [e3]
    simp only [Eko.applyEvent, hb1, if_true, hA3]
  have hlast4 : (Eko.appendToLast (Eko.appendToLast m.messages tok) " [Stream cancelled]").getLast? =
      some { last with content := last.content ++ tok ++ " [Stream cancelled]" } :=
    Eko.updateLastMessage_getLast _ hlast3
  refine ⟨⟨?_, ?_, ?_, ?_⟩, ⟨?_, ?_, ?_, ?_⟩⟩
  · rw [e2]
  · rw [e2]
  · rw [e2]
  · rw [e2]; exact hlast2
  · rw [e4]
  · rw [e4]
  · rw [e4]
  · rw [e4]; exact hlast4

/-- Witness for C2 on the sample session with the active generation
"ba": both orders of cancel and late token end terminal-cancelled. -/
theorem c2_cancel_token_race_witness :
    ((Eko.applyEvent (Eko.applyEvent Eko.activeModel (.cancelStreamMsg "ba")).1 (.tokenMsg "ba" "!")).1.streaming = false ∧
     (Eko.applyEvent (Eko.applyEvent Eko.activeModel (.cancelStreamMsg "ba")).1 (.tokenMsg "ba" "!")).1.isThinking = false ∧
     (Eko.applyEvent (Eko.applyEvent Eko.activeModel (.cancelStreamMsg "ba")).1 (.tokenMsg "ba" "!")).1.currentStreamID = "" ∧
     (Eko.applyEvent (Eko.applyEvent Eko.activeModel (.cancelStreamMsg "ba")).1 (.tokenMsg "ba" "!")).1.messages.getLast? =
       some { Eko.msgAsst with content := Eko.msgAsst.content ++ " [Stream cancelled]" ++ "!" }) ∧
    ((Eko.applyEvent (Eko.applyEvent Eko.activeModel (.tokenMsg "ba" "!")).1 (.cancelStreamMsg "ba")).1.streaming = false ∧
     (Eko.applyEvent (Eko.applyEvent Eko.activeModel (.tokenMsg "ba" "!")).1 (.cancelStreamMsg "ba")).1.isThinking = false ∧
     (Eko.applyEvent (Eko.applyEvent Eko.activeModel (.tokenMsg "ba" "!")).1 (.cancelStreamMsg "ba")).1.currentStreamID = "" ∧
     (Eko.applyEvent (Eko.applyEvent Eko.activeModel (.tokenMsg "ba" "!")).1 (.cancelStreamMsg "ba")).1.messages.getLast? =
       some { Eko.msgAsst with content := Eko.msgAsst.content ++ "!" ++ " [Stream cancelled]" }) :=
  c2_cancel_token_race Eko.activeModel "ba" "!" Eko.msgAsst rfl rfl rfl rfl

/-- C4.  Counterexample: the Errored handler ignores the event's target
turn id.  In a log whose last turn is "da", a `StreamErrorMsg` targeting
the superseded turn "ba" leaves "ba" untouched and instead replaces the
content of "da" — not "exactly the turn whose id is the event's target
turn id". -/
theorem c4_counterexample :
    (Eko.applyEvent Eko.fourTurnModel (.streamErrorMsg "ba" "boom")).1.messages =
      [Eko.msgU1, Eko.msgA1, Eko.msgU2, { Eko.msgA2 with content := "Error: boom" }] ∧
    Eko.msgA1.content = "a1" ∧ Eko.msgA1.id = "ba" ∧ Eko.msgA2.id ≠ "ba" := by
  refine ⟨by decide, by decide, by decide, by decide⟩

/-- C4 (amended).  Applying `Errored(message)` replaces the content of
the LAST turn of the log — regardless of the event's target turn id —
with the error mark, provided that last turn has role assistant; it
marks streaming and thinking over, and modifies no other turn; when the
last turn is not an assistant turn (or the log is empty) no turn is
modified at all. -/
theorem c4_errored_annotates_last (m : Eko.Model) (id err : String) :
    (Eko.applyEvent m (.streamErrorMsg id err)).1.streaming = false ∧
    (Eko.applyEvent m (.streamErrorMsg id err)).1.isThinking = false ∧
    (Eko.applyEvent m (.streamErrorMsg id err)).1.messages.dropLast = m.messages.dropLast ∧
    (∀ last, m.messages.getLast? = some last → last.role = "assistant" →
      (Eko.applyEvent m (.streamErrorMsg id err)).1.messages.getLast? =
        some { last with content := "Error: " ++ err }) ∧
    (∀ last, m.messages.getLast? = some last → last.role ≠ "assistant" →
      (Eko.applyEvent m (.streamErrorMsg id err)).1.messages = m.messages) := by
  by_cases hA : Eko.lastIsAssistant m.messages = true
  · obtain ⟨last, hlast, hrole⟩ := Eko.lastIsAssistant_eq_true.mp hA
    have e : Eko.applyEvent m (.streamErrorMsg id err) =
        ({ m with messages := Eko.setLastContent m.messages ("Error: " ++ err),
                  streaming := false, isThinking := false }, []) := by
      simp only [Eko.applyEvent, hA, if_true]
    refine ⟨by rw [e], by rw [e], ?_, ?_, ?_⟩
    · rw [e]
      exact Eko.updateLastMessage_dropLast _ hlast
    · intro last' hlast' _
      rw [e]
      exact Eko.updateLastMessage_getLast _ hlast'
    · intro last' hlast' hrole'
      rw [hlast] at hlast'
      cases hlast'
      exact absurd hrole hrole'
  · have e : Eko.applyEvent m (.streamErrorMsg id err) =
        ({ m with streaming := false, isThinking := false }, []) := by
      simp only [Eko.applyEvent, hA, if_false]
      simp only [Bool.not_eq_true] at hA
      simp [hA]
    refine ⟨by rw [e], by rw [e], by rw [e], ?_, by intro _ _ _; rw [e]⟩
    intro last hlast hrole
    exact absurd (Eko.lastIsAssistant_eq_true.mpr ⟨last, hlast, hrole⟩) hA

/-- Witness for C4 (amended) on the four-turn log. -/
theorem c4_errored_annotates_last_witness :
    (Eko.applyEvent Eko.fourTurnModel (.streamErrorMsg "da" "boom")).1.messages.getLast? =
      some { Eko.msgA2 with content := "Error: " ++ "boom" } ∧
    (Eko.applyEvent Eko.fourTurnModel (.streamErrorMsg "da" "boom")).1.streaming = false :=
  ⟨(c4_errored_annotates_last Eko.fourTurnModel "da" "boom").2.2.2.1 Eko.msgA2 rfl rfl,
   (c4_errored_annotates_last Eko.fourTurnModel "da" "boom").1⟩

/-- C5.  In Insert mode, enter with a non-empty buffer: cancel any active
generation (the cancel effect precedes the start effect), append a user
turn carrying the buffer, append an empty assistant turn after it, start
a generation targeting the assistant turn, clear the buffer, and move to
Normal mode. -/
theorem c5_insert_enter_submits (store : Eko.CodeBlockStore) (m : Eko.Model) (now : Nat)
    (hstate : m.state = .InsertState) (hne : m.inputValue ≠ "") :
    (Eko.applyKey store m "enter" now).1.messages =
      m.messages ++
        [{ id := Eko.generateID m.messages.length, role := "user", content := m.inputValue,
           isCollapsed := false, timestamp := now },
         { id := Eko.generateID (m.messages.length + 1), role := "assistant", content := "",
           isCollapsed := false, timestamp := now }] ∧
    (Eko.applyKey store m "enter" now).1.streaming = true ∧
    (Eko.applyKey store m "enter" now).1.isThinking = true ∧
    (Eko.applyKey store m "enter" now).1.currentStreamID =
      Eko.generateID (m.messages.length + 1) ∧
    (Eko.applyKey store m "enter" now).1.state = .NormalState ∧
    (Eko.applyKey store m "enter" now).1.inputValue = "" ∧
    (Eko.applyKey store m "enter" now).2 =
      (if m.isThinking && m.currentStreamID != "" then
        [Eko.Cmd.cancelStream m.currentStreamID]
      else []) ++
        [Eko.Cmd.startRealtimeStream (Eko.generateID (m.messages.length + 1)),
         Eko.Cmd.updateViewportContent, Eko.Cmd.scrollToBottom] := by
  obtain ⟨st, vm, msgs, inp, mn, ml, si, strm, thk, cid, lk, kt, yi, ys, yt⟩ := m
  simp only at hstate hne
  subst hstate
  have hinp : (inp == "") = false := by simp [hne]
  by_cases hy : ys = ""
  · simp [Eko.applyKey, Eko.keyDispatch, hinp, hy]
  · by_cases ht : 3000 ≤ now - yt
    · simp [Eko.applyKey, Eko.keyDispatch, hinp, hy, ht]
    · simp [Eko.applyKey, Eko.keyDispatch, hinp, hy, ht]

/-- Witness for C5 on the sample session with an active generation and
buffer "hello". -/
theorem c5_insert_enter_submits_witness :
    (Eko.applyKey Eko.emptyStore
        { Eko.activeModel with state := .InsertState, inputValue := "hello" } "enter" 7).1.messages =
      { Eko.activeModel with state := .InsertState, inputValue := "hello" }.messages ++
        [{ id := Eko.generateID 2, role := "user", content := "hello",
           isCollapsed := false, timestamp := 7 },
         { id := Eko.generateID 3, role := "assistant", content := "",
           isCollapsed := false, timestamp := 7 }] ∧
    (Eko.applyKey Eko.emptyStore
        { Eko.activeModel with state := .InsertState, inputValue := "hello" } "enter" 7).2 =
      [Eko.Cmd.cancelStream "ba", Eko.Cmd.startRealtimeStream (Eko.generateID 3),
       Eko.Cmd.updateViewportContent, Eko.Cmd.scrollToBottom] := by
  have h := c5_insert_enter_submits Eko.emptyStore
    { Eko.activeModel with state := .InsertState, inputValue := "hello" } 7 rfl (by decide)
  exact ⟨h.1, by rw [h.2.2.2.2.2.2]; decide⟩

/-- C10.  Enter in Insert mode with an empty buffer changes nothing
observable: no turn is appended, no generation effect (or any other
effect) is emitted, the buffer stays empty, the streaming flags and
current stream are untouched, and the mode remains Insert. -/
theorem c10_empty_enter_noop (store : Eko.CodeBlockStore) (m : Eko.Model) (now : Nat)
    (hstate : m.state = .InsertState) (hempty : m.inputValue = "") :
    (Eko.applyKey store m "enter" now).1.messages = m.messages ∧
    (Eko.applyKey store m "enter" now).1.state = .InsertState ∧
    (Eko.applyKey store m "enter" now).1.inputValue = "" ∧
    (Eko.applyKey store m "enter" now).1.streaming = m.streaming ∧
    (Eko.applyKey store m "enter" now).1.isThinking = m.isThinking ∧
    (Eko.applyKey store m "enter" now).1.currentStreamID = m.currentStreamID ∧
    (Eko.applyKey store m "enter" now).2 = [] := by
  obtain ⟨st, vm, msgs, inp, mn, ml, si, strm, thk, cid, lk, kt, yi, ys, yt⟩ := m
  simp only at hstate hempty
  subst hstate
  subst hempty
  have hlen : ¬("enter".length = 1) := by decide
  by_cases hy : ys = ""
  · simp [Eko.applyKey, Eko.keyDispatch, Eko.textInputUpdate, hlen, hy]
  · by_cases ht : 3000 ≤ now - yt
    · simp [Eko.applyKey, Eko.keyDispatch, Eko.textInputUpdate, hlen, hy, ht]
    · simp [Eko.applyKey, Eko.keyDispatch, Eko.textInputUpdate, hlen, hy, ht]

/-- Witness for C10 on the sample session put in Insert mode. -/
theorem c10_empty_enter_noop_witness :
    (Eko.applyKey Eko.emptyStore
        { Eko.sampleModel with state := .InsertState } "enter" 7).1.messages =
      { Eko.sampleModel with state := .InsertState }.messages ∧
    (Eko.applyKey Eko.emptyStore
        { Eko.sampleModel with state := .InsertState } "enter" 7).1.state = .InsertState ∧
    (Eko.applyKey Eko.emptyStore
        { Eko.sampleModel with state := .InsertState } "enter" 7).2 = [] := by
  have h := c10_empty_enter_noop Eko.emptyStore
    { Eko.sampleModel with state := .InsertState } 7 rfl rfl
  exact ⟨h.1, h.2.1, h.2.2.2.2.2.2⟩

/-- C9.  Counterexample: a pending first "g" is NOT discarded by a
following different key.  From the fresh session, pressing "g" at t=0,
then "tab" at t=100, then "g" at t=200 still triggers the scroll-to-top
signal (and after the "tab" the pending key is still "g"), while the
claim says "g" followed by any other key discards the pending "g". -/
theorem c9_counterexample :
    Eko.Cmd.gotoTop ∈
      (Eko.applyKey Eko.emptyStore
        (Eko.applyKey Eko.emptyStore
          (Eko.applyKey Eko.emptyStore Eko.initModel "g" 0).1 "tab" 100).1 "g" 200).2 ∧
    (Eko.applyKey Eko.emptyStore
        (Eko.applyKey Eko.emptyStore Eko.initModel "g" 0).1 "tab" 100).1.lastKey = "g" := by
  refine ⟨by decide, by decide⟩

/-- C9 (amended).  In Normal mode, "g" then "g" with at most 300ms in
between triggers the scroll-to-top signal; "g" then "g" after more than
300ms does not trigger it and re-arms the pending key at the new
instant; a different key such as "tab" leaves the pending "g" in place
(only "G" resets it), so the pending first "g" is not discarded by other
keys. -/
theorem c9_gg_double_tap (store : Eko.CodeBlockStore) (m : Eko.Model)
    (t t' t'' : Nat)
    (hstate : m.state = .NormalState) (hlk : m.lastKey ≠ "g")
    (hfast : t' - t ≤ 300) (hslow : ¬(t'' - t ≤ 300)) :
    Eko.Cmd.gotoTop ∉ (Eko.applyKey store m "g" t).2 ∧
    (Eko.applyKey store m "g" t).1.lastKey = "g" ∧
    (Eko.applyKey store m "g" t).1.keyTimer = t ∧
    Eko.Cmd.gotoTop ∈
      (Eko.applyKey store (Eko.applyKey store m "g" t).1 "g" t').2 ∧
    Eko.Cmd.gotoTop ∉
      (Eko.applyKey store (Eko.applyKey store m "g" t).1 "g" t'').2 ∧
    (Eko.applyKey store (Eko.applyKey store m "g" t).1 "g" t'').1.lastKey = "g" ∧
    (Eko.applyKey store (Eko.applyKey store m "g" t).1 "g" t'').1.keyTimer = t'' ∧
    (Eko.applyKey store (Eko.applyKey store m "g" t).1 "tab" t').1.lastKey = "g" ∧
    (Eko.applyKey store (Eko.applyKey store m "g" t).1 "G" t').1.lastKey = "" := by
  obtain ⟨st, vm, msgs, inp, mn, ml, si, strm, thk, cid, lk, kt, yi, ys, yt⟩ := m
  simp only at hstate hlk
  subst hstate
  have hlkb : (lk == "g") = false := by simp [hlk]
  by_cases hy : ys = ""
  · simp [Eko.applyKey, Eko.keyDispatch, hlkb, hy, hfast, hslow]
  · by_cases ht : 3000 ≤ t - yt
    · by_cases ht' : 3000 ≤ t' - yt
      · by_cases ht'' : 3000 ≤ t'' - yt
        · simp [Eko.applyKey, Eko.keyDispatch, hlkb, hy, ht, ht', ht'', hfast, hslow]
        · simp [Eko.applyKey, Eko.keyDispatch, hlkb, hy, ht, ht', ht'', hfast, hslow]
      · by_cases ht'' : 3000 ≤ t'' - yt
        · simp [Eko.applyKey, Eko.keyDispatch, hlkb, hy, ht, ht', ht'', hfast, hslow]
        · simp [Eko.applyKey, Eko.keyDispatch, hlkb, hy, ht, ht', ht'', hfast, hslow]
    · by_cases ht' : 3000 ≤ t' - yt
      · by_cases ht'' : 3000 ≤ t'' - yt
        · simp [Eko.applyKey, Eko.keyDispatch, hlkb, hy, ht, ht', ht'', hfast, hslow]
        · simp [Eko.applyKey, Eko.keyDispatch, hlkb, hy, ht, ht', ht'', hfast, hslow]
      · by_cases ht'' : 3000 ≤ t'' - yt
        · simp [Eko.applyKey, Eko.keyDispatch, hlkb, hy, ht, ht', ht'', hfast, hslow]
        · simp [Eko.applyKey, Eko.keyDispatch, hlkb, hy, ht, ht', ht'', hfast, hslow]

/-- Witness for C9 (amended) on the fresh session with
t = 0, t' = 200, t'' = 400. -/
theorem c9_gg_double_tap_witness :
    Eko.Cmd.gotoTop ∈
      (Eko.applyKey Eko.emptyStore
        (Eko.applyKey Eko.emptyStore Eko.initModel "g" 0).1 "g" 200).2 ∧
    Eko.Cmd.gotoTop ∉
      (Eko.applyKey Eko.emptyStore
        (Eko.applyKey Eko.emptyStore Eko.initModel "g" 0).1 "g" 400).2 :=
  have h := c9_gg_double_tap Eko.emptyStore Eko.initModel 0 200 400 rfl
    (by decide) (by decide) (by decide)
  ⟨h.2.2.2.1, h.2.2.2.2.1⟩

/-- C8.  Counterexample: `:save` with the filename omitted does not
export at all — the handler returns to Normal mode emitting no effect,
while the claim says the conversation is exported under a default
name. -/
theorem c8_counterexample :
    Eko.handleCommand Eko.sampleModel "save" =
      ({ Eko.sampleModel with state := .NormalState }, []) := by
  decide

/-- C8 (amended).  `:save` with no filename argument is a no-op that
returns to Normal mode without exporting; with a filename argument
lacking the ".json" suffix the conversation is exported to the argument
with ".json" appended, the records being the log's messages in order
(fields id, role, content, isCollapsed, timestamp). -/
theorem c8_save_command (m : Eko.Model) (c₀ c₁ fn : String)
    (h₀ : Eko.goFields c₀ = ["save"])
    (h₁ : Eko.goFields c₁ = ["save", fn])
    (hfn : Eko.goHasSuffix fn ".json" = false) :
    Eko.handleCommand m c₀ = ({ m with state := .NormalState }, []) ∧
    Eko.handleCommand m c₁ =
      ({ m with state := .NormalState },
       [Eko.Cmd.exportFile (fn ++ ".json") m.messages]) := by
  constructor
  · rw [Eko.handleCommand, h₀]
    simp
  · rw [Eko.handleCommand, h₁]
    simp [hfn]

/-- Witness for C8 (amended) on the sample session with filename
"notes". -/
theorem c8_save_command_witness :
    Eko.handleCommand Eko.sampleModel "save" =
      ({ Eko.sampleModel with state := .NormalState }, []) ∧
    Eko.handleCommand Eko.sampleModel "save notes" =
      ({ Eko.sampleModel with state := .NormalState },
       [Eko.Cmd.exportFile ("notes" ++ ".json") Eko.sampleModel.messages]) :=
  c8_save_command Eko.sampleModel "save" "save notes" "notes"
    (by decide) (by decide) (by decide)

/-- C1.  Counterexample: not every Token-carrying event variant the
session accepts suppresses stale tokens.  A `StreamTokenMsg` whose
target id "zz" is not the id "ba" of the last (assistant) turn still
appends its token to that turn, mutating its content from "x" to "x!". -/
theorem c1_counterexample :
    (Eko.applyEvent Eko.sampleModel (.streamTokenMsg "zz" "!" true)).1.messages =
      [Eko.msgUser, { Eko.msgAsst with content := "x!" }] ∧
    ({ Eko.msgAsst with content := "x!" } : Eko.Message).content ≠ Eko.msgAsst.content := by
  constructor
  · decide
  · decide

/-- C1 (amended).  Stale-event suppression holds for the real-time
`TokenMsg` variant: if the log's last turn does not have role assistant
or does not carry the event's target id (in particular when the log is
empty), applying the `TokenMsg` leaves the whole session state unchanged
and emits nothing.  The legacy `StreamMsg`/`StreamTokenMsg` variants
check only the role of the last turn, not the target id, and do append
to it. -/
theorem c1_stale_token_suppressed (m : Eko.Model) (id token : String)
    (hstale : ∀ last, m.messages.getLast? = some last →
      last.role ≠ "assistant" ∨ last.id ≠ id) :
    Eko.applyEvent m (.tokenMsg id token) = (m, []) := by
  rcases hl : m.messages.getLast? with _ | last
  · simp [Eko.applyEvent, hl]
  · rcases hstale last hl with h | h
    · have hb : (last.role == "assistant") = false := by simp [h]
      simp [Eko.applyEvent, hl, hb]
    · have hb : (last.id == id) = false := by simp [h]
      simp [Eko.applyEvent, hl, hb]

/-- Witness for C1 (amended): a stale `TokenMsg` targeting "zz" leaves
the sample session untouched. -/
theorem c1_stale_token_suppressed_witness :
    Eko.applyEvent Eko.sampleModel (.tokenMsg "zz" "!") = (Eko.sampleModel, []) :=
  c1_stale_token_suppressed Eko.sampleModel "zz" "!" (by
    intro last hl
    rw [show Eko.sampleModel.messages.getLast? = some Eko.msgAsst from rfl] at hl
    cases hl
    right
    decide)
